import Mathlib

/-!
Shallow embedding of the SPA router in `src/js/router.js`.

Modelling choices:
* JS `Map` (insertion-ordered, `set` overwrites in place) becomes an
  association list `List (String × RouteData)` with `mapSet` / `mapGet`.
* The manifest forest becomes the mutual inductives `ManifestNode` /
  `ManifestForest` (a node's `children` array is a forest).
* A possibly-missing `content_path` becomes `Option String` (JS `null` /
  `undefined` and the empty string are all falsy for `pathToSubRoute`,
  which checks `!contentPath`).
* JS string operations (`startsWith`, the anchored regex replaces,
  `split('/')`, `toLowerCase` for the `/i` regex flag) are defined over
  the character list of the string so that they compute by kernel
  reduction.
* The async `handleRoute` method becomes a one-pass step function
  `handleRoute : RouterState → String → Step` plus a fuel-indexed driver
  `handleRouteRun` that follows internal `navigate(target, true)` calls,
  recording each history operation (`pushState` / `replaceState`).
* DOM writes (layout, breadcrumb, content region, document title) are
  modelled as pure values describing the state the router leaves the
  DOM in.
-/

/-- `lead` is an initial segment of `cs` (character-level `startsWith`). -/
def charsLead : List Char → List Char → Bool
  | [], _ => true
  | _ :: _, [] => false
  | p :: ps, c :: cs => p = c && charsLead ps cs

/-- JS `String.prototype.startsWith`. -/
def strStartsWith (s pat : String) : Bool :=
  charsLead pat.data s.data

/-- Trailing-match test used for the anchored regexes (`/\.html$/` etc.). -/
def strEndsWith (s pat : String) : Bool :=
  charsLead pat.data.reverse s.data.reverse

/-- Remove the last `n` characters of a string. -/
def strDropRight (s : String) (n : Nat) : String :=
  String.mk (s.data.take (s.data.length - n))

/-- ASCII lower-casing, enough for the `/i` flag on `/\/README$/i`. -/
def strToLower (s : String) : String :=
  String.mk (s.data.map Char.toLower)

/-- JS `String.prototype.split` with a one-character separator:
`''.split('/') = ['']`, `'/a'.split('/') = ['', 'a']`. -/
def splitCharList (sep : Char) : List Char → List (List Char)
  | [] => [[]]
  | c :: cs =>
    if c = sep then [] :: splitCharList sep cs
    else
      match splitCharList sep cs with
      | [] => [[c]]
      | g :: gs => (c :: g) :: gs

/-- `route.split('/')` as a list of strings. -/
def strSplitSlash (s : String) : List String :=
  (splitCharList '/' s.data).map (fun cs => String.mk cs)

/-- Metadata stored in the route table, mirroring the object literal built in
`Router.buildRoutes` (`src/js/router.js` lines 41-47). -/
structure RouteData where
  title : String
  type : String
  contentPath : Option String
  parentPath : String
  namedRoute : String
deriving DecidableEq, Repr

/-- An entry of `this.flatRoutes`, mirroring the object literal pushed in
`Router.buildRoutes` (`src/js/router.js` lines 49-54). -/
structure FlatRoute where
  route : String
  title : String
  type : String
  contentPath : Option String
deriving DecidableEq, Repr

mutual
/-- A manifest node: `{ title, type, content_path, children }`. -/
inductive ManifestNode where
  | mk (title : String) (type : String) (content_path : Option String)
       (children : ManifestForest)

/-- An ordered sequence of manifest nodes (a `children` array or the
manifest root array). -/
inductive ManifestForest where
  | nil
  | cons (head : ManifestNode) (tail : ManifestForest)
end

/-- `children.length` for a forest. -/
def ManifestForest.length : ManifestForest → Nat
  | ManifestForest.nil => 0
  | ManifestForest.cons _ t => 1 + ManifestForest.length t

/-- The two process-wide structures `Router.buildRoutes` populates:
`this.routes` (a JS `Map`) and `this.flatRoutes` (a JS array). -/
structure RouterState where
  routes : List (String × RouteData)
  flatRoutes : List FlatRoute
deriving DecidableEq, Repr

/-- JS `Map.prototype.set`: overwrite in place if the key is present,
otherwise append at the end (JS maps iterate in insertion order). -/
def mapSet (m : List (String × RouteData)) (k : String) (v : RouteData) :
    List (String × RouteData) :=
  match m with
  | [] => [(k, v)]
  | p :: rest => if p.1 = k then (k, v) :: rest else p :: mapSet rest k v

/-- JS `Map.prototype.get`, returning `none` for a missing key. -/
def mapGet (m : List (String × RouteData)) (k : String) : Option RouteData :=
  match m with
  | [] => none
  | p :: rest => if p.1 = k then some p.2 else mapGet rest k

/-- The regex replace `.replace(/\.html$/, '')`: strip one trailing
`.html` if present (the regex is anchored and not global). -/
def replaceHtmlSuffix (s : String) : String :=
  if strEndsWith s ".html" then strDropRight s 5 else s

/-- The regex replace `.replace(/\/README$/i, '')` (and the identical
`.replace(/\/readme$/i, '')`): strip one trailing `/README`,
case-insensitively, if present. -/
def replaceReadmeSuffix (s : String) : String :=
  if strEndsWith (strToLower s) "/readme" then strDropRight s 7 else s

/-- `Router.pathToSubRoute` (`src/js/router.js` lines 63-70): falsy input
(missing or empty) maps to `''`; otherwise strip a trailing `.html`, then
twice a trailing case-insensitive `/README`; the trailing `|| ''` turns
an empty result into `''`. -/
def pathToSubRoute (contentPath : Option String) : String :=
  match contentPath with
  | none => ""
  | some s =>
    if s = "" then ""
    else
      let r := replaceReadmeSuffix (replaceReadmeSuffix (replaceHtmlSuffix s))
      if r = "" then "" else r

/-- `Router.pathToRoute` (`src/js/router.js` lines 73-76). -/
def pathToRoute (contentPath : Option String) : String :=
  "/notes" ++ pathToSubRoute contentPath

/-- A browser-history write performed by `Router.navigate`
(`src/js/router.js` lines 79-86). -/
inductive HistoryOp where
  | push (route : String)
  | replace (route : String)
deriving DecidableEq, Repr

/-- The history write `Router.navigate` performs:
`history.replaceState` when `replace` is true, else `history.pushState`. -/
def navigateOp (route : String) (replace : Bool) : HistoryOp :=
  if replace then HistoryOp.replace route else HistoryOp.push route

/-- The three keys of `this.namedRoutes` (`src/js/router.js` lines 9-28). -/
inductive NamedRoute where
  | home
  | about
  | notes
deriving DecidableEq, Repr

/-- The static fields of a named-route definition (the `render` closures
act on the DOM and are modelled separately). -/
structure NamedRouteDef where
  path : String
  title : String
  sidebar : Bool
deriving DecidableEq, Repr

/-- The named-route registry `this.namedRoutes`
(`src/js/router.js` lines 9-28). -/
def namedRoutes : NamedRoute → NamedRouteDef
  | NamedRoute.home => { path := "/", title := "Home", sidebar := false }
  | NamedRoute.about => { path := "/about", title := "About", sidebar := false }
  | NamedRoute.notes => { path := "/notes", title := "Notes", sidebar := true }

/-- `Router.resolveNamedRoute` (`src/js/router.js` lines 95-100). -/
def resolveNamedRoute (path : String) : Option NamedRoute :=
  if path = "/" then some NamedRoute.home
  else if path = "/about" then some NamedRoute.about
  else if path = "/notes" ∨ strStartsWith path "/notes/" = true ∨
      strStartsWith path "/notes?" = true then
    some NamedRoute.notes
  else none

mutual
/-- `Router.buildRoutes` (`src/js/router.js` lines 36-60), iterating
`items.forEach`. -/
def buildRoutes : ManifestForest → String → RouterState → RouterState
  | ManifestForest.nil, _, st => st
  | ManifestForest.cons item rest, parentPath, st =>
    buildRoutes rest parentPath (buildRoutesItem item parentPath st)

/-- The body of the `forEach` callback in `Router.buildRoutes`: set the
route-table entry at `'/notes' + pathToSubRoute(content_path)`, push a
flat route, and recurse into non-empty `children` with the just-computed
route as `parentPath`. -/
def buildRoutesItem : ManifestNode → String → RouterState → RouterState
  | ManifestNode.mk title type content_path children, parentPath, st =>
    let subroute := pathToSubRoute content_path
    let route := "/notes" ++ subroute
    let st1 : RouterState :=
      { routes := mapSet st.routes route
          { title := title, type := type, contentPath := content_path,
            parentPath := parentPath, namedRoute := "notes" },
        flatRoutes := st.flatRoutes ++
          [{ route := route, title := title, type := type, contentPath := content_path }] }
    if children.length > 0 then buildRoutes children route st1 else st1
end

mutual
/-- The sequence of `(key, value)` insertions `Router.buildRoutes` performs
on `this.routes`, in order (depth-first, pre-order). -/
def insertions : ManifestForest → String → List (String × RouteData)
  | ManifestForest.nil, _ => []
  | ManifestForest.cons item rest, parentPath =>
    insertionsItem item parentPath ++ insertions rest parentPath

/-- The insertions contributed by one node and its subtree. -/
def insertionsItem : ManifestNode → String → List (String × RouteData)
  | ManifestNode.mk title type content_path children, parentPath =>
    let route := "/notes" ++ pathToSubRoute content_path
    (route, { title := title, type := type, contentPath := content_path,
              parentPath := parentPath, namedRoute := "notes" }) ::
      insertions children route
end

mutual
/-- The sequence of entries `Router.buildRoutes` pushes onto
`this.flatRoutes`, in order (depth-first, pre-order). -/
def flatInsertions : ManifestForest → List FlatRoute
  | ManifestForest.nil => []
  | ManifestForest.cons item rest =>
    flatInsertionsItem item ++ flatInsertions rest

/-- The flat-route entries contributed by one node and its subtree. -/
def flatInsertionsItem : ManifestNode → List FlatRoute
  | ManifestNode.mk title type content_path children =>
    { route := "/notes" ++ pathToSubRoute content_path, title := title,
      type := type, contentPath := content_path } :: flatInsertions children
end

/-- Fold a list of `(key, value)` insertions into a table with `mapSet`. -/
def applyAll (m : List (String × RouteData)) (l : List (String × RouteData)) :
    List (String × RouteData) :=
  l.foldl (fun acc q => mapSet acc q.1 q.2) m

/-- The last value assigned to key `k` by the insertion sequence `l`
(`none` if `l` never assigns `k`). -/
def lastAssign : List (String × RouteData) → String → Option RouteData
  | [], _ => none
  | q :: rest, k => (lastAssign rest k).or (if q.1 = k then some q.2 else none)

/-- `Router.findMatchingRoute` (`src/js/router.js` lines 249-256): scan the
route table in insertion order, returning the first key `r` with
`r.startsWith(route) || route.startsWith(r)`. -/
def findMatchingRoute (routes : List (String × RouteData)) (route : String) :
    Option String :=
  match routes with
  | [] => none
  | (r, _) :: rest =>
    if strStartsWith r route = true ∨ strStartsWith route r = true then some r
    else findMatchingRoute rest route

/-- The terminal outcome of one `handleRoute` pass. -/
inductive FinalAction where
  | renderedHome
  | renderedAbout
  | renderedNotes (route : String) (rd : RouteData)
  | rendered404
  | outOfFuel
deriving DecidableEq, Repr

/-- What a single `handleRoute` pass does: either finish with a terminal
action, or call `this.navigate(target, true)`. -/
inductive Step where
  | done (fin : FinalAction)
  | redirect (target : String)
deriving DecidableEq, Repr

/-- One pass of `Router.handleRoute` (`src/js/router.js` lines 103-154),
with the current URL `path` passed explicitly.  The `notes` branch reads
`routeData = this.routes.get(route)`; when it is missing, `route` is the
bare `'/notes'`, and `flatRoutes[0]` exists, it redirects there;
otherwise a present entry renders, and a missing one goes through
`findMatchingRoute`, redirecting on a match and rendering 404 on none. -/
def handleRoute (st : RouterState) (path : String) : Step :=
  match resolveNamedRoute path with
  | some NamedRoute.home => Step.done FinalAction.renderedHome
  | some NamedRoute.about => Step.done FinalAction.renderedAbout
  | some NamedRoute.notes =>
    match mapGet st.routes path,
          (if path = "/notes" then st.flatRoutes.head? else none) with
    | none, some firstRoute => Step.redirect firstRoute.route
    | some rd, _ => Step.done (FinalAction.renderedNotes path rd)
    | none, none =>
      match findMatchingRoute st.routes path with
      | some m => Step.redirect m
      | none => Step.done FinalAction.rendered404
  | none => Step.done FinalAction.rendered404

/-- Drive `handleRoute`, following each internal `navigate(target, true)`
call (a `replaceState` plus a synchronous re-entry into `handleRoute`),
recording the history operations performed.  `fuel` bounds the number of
redirects followed; the theorems below show the chains that actually
arise stop within the provided fuel. -/
def handleRouteRun (st : RouterState) : Nat → String → List HistoryOp × FinalAction
  | 0, path =>
    match handleRoute st path with
    | Step.done fin => ([], fin)
    | Step.redirect target => ([navigateOp target true], FinalAction.outOfFuel)
  | Nat.succ fuel, path =>
    match handleRoute st path with
    | Step.done fin => ([], fin)
    | Step.redirect target =>
      let res := handleRouteRun st fuel target
      (navigateOp target true :: res.1, res.2)

/-- The visibility state of the four chrome elements plus the `home-page`
marker class, as written by `Router.applyLayout`
(`src/js/router.js` lines 157-182).  `style.display = ''` is visible,
`'none'` is hidden. -/
structure ChromeState where
  homePageClass : Bool
  sidebarVisible : Bool
  menuToggleVisible : Bool
  overlayVisible : Bool
  breadcrumbVisible : Bool
deriving DecidableEq, Repr

/-- `namedRoute?.sidebar ?? false` in `Router.applyLayout`. -/
def showSidebarOf (nr : Option NamedRoute) : Bool :=
  match nr with
  | some r => (namedRoutes r).sidebar
  | none => false

/-- The chrome state after the `showSidebar` branch of `applyLayout`. -/
def shownChrome : ChromeState :=
  { homePageClass := false, sidebarVisible := true, menuToggleVisible := true,
    overlayVisible := true, breadcrumbVisible := true }

/-- The chrome state after the `else` branch of `applyLayout`. -/
def hiddenChrome : ChromeState :=
  { homePageClass := true, sidebarVisible := false, menuToggleVisible := false,
    overlayVisible := false, breadcrumbVisible := false }

/-- `Router.applyLayout` (`src/js/router.js` lines 157-182): both branches
write the marker class and all four display styles unconditionally, so
the previous chrome state is overwritten whole. -/
def applyLayout (nr : Option NamedRoute) (_c : ChromeState) : ChromeState :=
  if showSidebarOf nr then shownChrome else hiddenChrome

/-- The four chrome elements agree in visibility and the `home-page`
marker is present exactly when they are hidden. -/
def chromeConsistent (c : ChromeState) : Prop :=
  c.menuToggleVisible = c.sidebarVisible ∧ c.overlayVisible = c.sidebarVisible ∧
    c.breadcrumbVisible = c.sidebarVisible ∧ c.homePageClass = !c.sidebarVisible

/-- Outcome of the `fetch` in `Router.renderNotes`: success with a body, a
non-ok HTTP status, or a transport error (rejected promise). -/
inductive FetchResult where
  | success (body : String)
  | httpError
  | transportError
deriving DecidableEq, Repr

/-- JS template-literal interpolation of a possibly-null value
(`${routeData.contentPath}` prints `null` for a null path). -/
def jsTemplateOptString : Option String → String
  | none => "null"
  | some s => s

/-- The URL `Router.renderNotes` fetches:
`` `/content-store${routeData.contentPath}` ``. -/
def contentRequestUrl (rd : RouteData) : String :=
  "/content-store" ++ jsTemplateOptString rd.contentPath

/-- `Router.renderNotes` (`src/js/router.js` lines 236-246) as a function
from the fetch outcome to the markup left in the content region: the
body on success, the inline error naming the content path otherwise
(a non-ok status throws into the same `catch` as a transport error). -/
def renderNotes (rd : RouteData) (response : FetchResult) : String :=
  match response with
  | FetchResult.success body => body
  | FetchResult.httpError =>
    "<p>Error loading: " ++ jsTemplateOptString rd.contentPath ++ "</p>"
  | FetchResult.transportError =>
    "<p>Error loading: " ++ jsTemplateOptString rd.contentPath ++ "</p>"

/-- A piece of the breadcrumb markup built by `Router.updateBreadcrumb`:
a link, the `<span>/</span>` separator, or plain text. -/
inductive Crumb where
  | link (label href : String)
  | sep
  | text (s : String)
deriving DecidableEq, Repr

/-- `true` for the link/text segments of a breadcrumb, `false` for the
separator spans. -/
def Crumb.isSegment : Crumb → Bool
  | Crumb.sep => false
  | _ => true

/-- The `parts.forEach` loop of `Router.updateBreadcrumb`: each part
appends a separator and then either a link to the cumulative path or,
for the last part, the route's title as plain text. -/
def breadcrumbLoop (title : String) : List String → String → List Crumb
  | [], _ => []
  | part :: rest, currentPath =>
    let cp := currentPath ++ "/" ++ part
    Crumb.sep ::
      ((if rest = [] then [Crumb.text title] else [Crumb.link part cp]) ++
        breadcrumbLoop title rest cp)

/-- `Router.updateBreadcrumb` (`src/js/router.js` lines 279-298) as the
sequence of links/separators/texts written into the breadcrumb element:
a `Home` link, then the loop over `route.split('/').filter(Boolean)`. -/
def updateBreadcrumb (route : String) (rd : RouteData) : List Crumb :=
  Crumb.link "Home" "/" ::
    breadcrumbLoop rd.title ((strSplitSlash route).filter (fun s => s ≠ "")) ""

/-- The content region markup written by `Router.show404`
(`src/js/router.js` lines 301-305). -/
def show404ContentBody : String :=
  "<h1>404</h1><p>Page not found. <a href=\"/\" data-link>Go home</a></p>"

/-- The breadcrumb markup written by `Router.show404`. -/
def show404BreadcrumbHtml : String :=
  "<a href=\"/\" data-link>Home</a> <span>/</span> 404"

/-- The DOM state the `notes` found-route branch of `Router.handleRoute`
(`src/js/router.js` lines 136-140) leaves behind: rendered content, then
active-nav update, breadcrumb update and document title, in that order,
all after the awaited fetch. -/
structure NotesView where
  contentBody : String
  activeNavRoute : String
  breadcrumb : List Crumb
  docTitle : String
deriving DecidableEq, Repr

/-- The found-route branch of `Router.handleRoute` for a `notes` route:
`await renderNotes`, `updateActiveNav`, `updateBreadcrumb`, set
`document.title` — the last three run whatever the fetch outcome was. -/
def notesRenderPass (route : String) (rd : RouteData) (response : FetchResult) :
    NotesView :=
  { contentBody := renderNotes rd response,
    activeNavRoute := route,
    breadcrumb := updateBreadcrumb route rd,
    docTitle := rd.title ++ " - Doc." }

/-! ### Table lemmas -/

theorem mapGet_mapSet (m : List (String × RouteData)) (k : String) (v : RouteData)
    (k' : String) :
    mapGet (mapSet m k v) k' = if k' = k then some v else mapGet m k' := by
  induction m with
  | nil =>
    simp only [mapSet, mapGet]
    by_cases h : k' = k
    · simp [h]
    · have h' : ¬ k = k' := fun hh => h hh.symm
      simp [h, h']
  | cons p rest ih =>
    by_cases hp : p.1 = k
    · simp only [mapSet, hp, if_true, mapGet]
      by_cases h : k' = k
      · subst h
        simp
      · have h' : ¬ k = k' := fun hh => h hh.symm
        have hp' : ¬ p.1 = k' := by rw [hp]; exact h'
        simp [mapGet, h, h', hp']
    · simp only [mapSet, hp, if_false, mapGet]
      by_cases hp' : p.1 = k'
      · have hk : ¬ k' = k := fun hh => hp (hp'.trans hh)
        simp [hp', hk]
      · simp [hp', ih]

theorem applyAll_nil (m : List (String × RouteData)) : applyAll m [] = m := rfl

theorem applyAll_cons (m : List (String × RouteData)) (q : String × RouteData)
    (l : List (String × RouteData)) :
    applyAll m (q :: l) = applyAll (mapSet m q.1 q.2) l := rfl

theorem applyAll_append (m : List (String × RouteData))
    (l₁ l₂ : List (String × RouteData)) :
    applyAll m (l₁ ++ l₂) = applyAll (applyAll m l₁) l₂ := by
  simp [applyAll, List.foldl_append]

theorem mapGet_applyAll (l : List (String × RouteData))
    (m : List (String × RouteData)) (k : String) :
    mapGet (applyAll m l) k = (lastAssign l k).or (mapGet m k) := by
  induction l generalizing m with
  | nil => simp [applyAll, lastAssign]
  | cons q rest ih =>
    rw [applyAll_cons, ih, lastAssign]
    cases hl : lastAssign rest k with
    | some v => simp
    | none =>
      simp only [Option.none_or]
      rw [mapGet_mapSet]
      by_cases h : k = q.1
      · simp [h]
      · have h' : ¬ q.1 = k := fun hq => h hq.symm
        simp [h, h']

theorem lastAssign_isSome_of_mem (l : List (String × RouteData)) (k : String)
    (h : k ∈ l.map Prod.fst) : (lastAssign l k).isSome = true := by
  induction l with
  | nil => simp at h
  | cons q rest ih =>
    rw [lastAssign, Option.isSome_or]
    rcases List.mem_cons.mp h with h1 | h2
    · have : q.1 = k := h1.symm
      simp [this]
    · simp [ih h2]

theorem mapGet_isSome_iff_mem (m : List (String × RouteData)) (k : String) :
    (mapGet m k).isSome = true ↔ k ∈ m.map Prod.fst := by
  induction m with
  | nil => simp [mapGet]
  | cons p rest ih =>
    by_cases h : p.1 = k <;> simp [mapGet, h, ih]
    exact fun h' => (h h'.symm).elim

theorem keys_mapSet_of_present (m : List (String × RouteData)) (k : String)
    (v : RouteData) (h : (mapGet m k).isSome = true) :
    (mapSet m k v).map Prod.fst = m.map Prod.fst := by
  induction m with
  | nil => simp [mapGet] at h
  | cons p rest ih =>
    by_cases hp : p.1 = k
    · simp [mapSet, hp]
    · simp only [mapGet, hp, if_false] at h
      simp [mapSet, hp, ih h]

theorem mem_keys_mapSet (m : List (String × RouteData)) (k : String) (v : RouteData)
    (x : String) (h : x ∈ (mapSet m k v).map Prod.fst) :
    x ∈ m.map Prod.fst ∨ x = k := by
  induction m with
  | nil =>
    simp [mapSet] at h
    exact Or.inr h
  | cons p rest ih =>
    by_cases hp : p.1 = k
    · simp only [mapSet, hp, if_true, List.map_cons, List.mem_cons] at h
      rcases h with h | h
      · exact Or.inr h
      · exact Or.inl (by simp [h])
    · simp only [mapSet, hp, if_false, List.map_cons, List.mem_cons] at h
      rcases h with h | h
      · exact Or.inl (by simp [h])
      · rcases ih h with h' | h'
        · exact Or.inl (by simp [h'])
        · exact Or.inr h'

theorem nodup_keys_mapSet (m : List (String × RouteData)) (k : String) (v : RouteData)
    (h : (m.map Prod.fst).Nodup) : ((mapSet m k v).map Prod.fst).Nodup := by
  induction m with
  | nil => simp [mapSet]
  | cons p rest ih =>
    by_cases hp : p.1 = k
    · simpa [mapSet, hp] using h
    · rw [List.map_cons] at h
      have h1 : p.1 ∉ rest.map Prod.fst := (List.nodup_cons.mp h).1
      have h2 : (rest.map Prod.fst).Nodup := (List.nodup_cons.mp h).2
      simp only [mapSet, hp, if_false, List.map_cons]
      refine List.nodup_cons.mpr ⟨?_, ih h2⟩
      intro hmem
      rcases mem_keys_mapSet rest k v p.1 hmem with h' | h'
      · exact h1 h'
      · exact hp h'

theorem keys_applyAll_of_present (l : List (String × RouteData))
    (m : List (String × RouteData))
    (h : ∀ q ∈ l, (mapGet m q.1).isSome = true) :
    (applyAll m l).map Prod.fst = m.map Prod.fst := by
  induction l generalizing m with
  | nil => simp [applyAll]
  | cons q rest ih =>
    rw [applyAll_cons]
    have hq : (mapGet m q.1).isSome = true := h q (by simp)
    have hrest : ∀ r ∈ rest, (mapGet (mapSet m q.1 q.2) r.1).isSome = true := by
      intro r hr
      rw [mapGet_mapSet]
      by_cases hcase : r.1 = q.1
      · simp [hcase]
      · simpa [hcase] using h r (by simp [hr])
    rw [ih (mapSet m q.1 q.2) hrest, keys_mapSet_of_present m q.1 q.2 hq]

theorem nodup_keys_applyAll (l : List (String × RouteData))
    (m : List (String × RouteData)) (h : (m.map Prod.fst).Nodup) :
    ((applyAll m l).map Prod.fst).Nodup := by
  induction l generalizing m with
  | nil => simpa [applyAll]
  | cons q rest ih =>
    rw [applyAll_cons]
    exact ih _ (nodup_keys_mapSet m q.1 q.2 h)

theorem table_ext (M N : List (String × RouteData))
    (hkeys : M.map Prod.fst = N.map Prod.fst) (hnodup : (M.map Prod.fst).Nodup)
    (hget : ∀ k, mapGet M k = mapGet N k) : M = N := by
  induction M generalizing N with
  | nil =>
    cases N with
    | nil => rfl
    | cons q N' => simp at hkeys
  | cons p M' ih =>
    cases N with
    | nil => simp at hkeys
    | cons q N' =>
      simp only [List.map_cons, List.cons.injEq] at hkeys
      obtain ⟨hk, hks⟩ := hkeys
      have hv : p.2 = q.2 := by
        have := hget p.1
        simp [mapGet, hk.symm] at this
        exact this
      rw [List.map_cons] at hnodup
      have hnode := List.nodup_cons.mp hnodup
      have hget' : ∀ k, mapGet M' k = mapGet N' k := by
        intro k
        by_cases hcase : k = p.1
        · have hM : mapGet M' k = none := by
            cases hres : mapGet M' k with
            | none => rfl
            | some v =>
              have : k ∈ M'.map Prod.fst :=
                (mapGet_isSome_iff_mem M' k).mp (by simp [hres])
              exact absurd (hcase ▸ this) hnode.1
          have hN : mapGet N' k = none := by
            cases hres : mapGet N' k with
            | none => rfl
            | some v =>
              have : k ∈ N'.map Prod.fst :=
                (mapGet_isSome_iff_mem N' k).mp (by simp [hres])
              rw [← hks] at this
              exact absurd (hcase ▸ this) hnode.1
          rw [hM, hN]
        · have := hget k
          have hq1 : ¬ q.1 = k := fun h => hcase (by rw [← hk] at h; exact h.symm)
          have hp1 : ¬ p.1 = k := fun h => hcase h.symm
          simpa [mapGet, hp1, hq1] using this
      have := ih N' hks hnode.2 hget'
      calc p :: M' = (p.1, p.2) :: M' := rfl
        _ = (q.1, q.2) :: N' := by rw [hk, hv, this]
        _ = q :: N' := rfl

/-! ### Characterization of `buildRoutes` -/

mutual
theorem buildRoutes_eq (f : ManifestForest) (p : String) (st : RouterState) :
    buildRoutes f p st =
      ⟨applyAll st.routes (insertions f p), st.flatRoutes ++ flatInsertions f⟩ := by
  match f with
  | ManifestForest.nil => simp [buildRoutes, insertions, flatInsertions, applyAll]
  | ManifestForest.cons item rest =>
    rw [buildRoutes, buildRoutesItem_eq item p st, buildRoutes_eq rest p _]
    simp [insertions, flatInsertions, applyAll_append]

theorem buildRoutesItem_eq (n : ManifestNode) (p : String) (st : RouterState) :
    buildRoutesItem n p st =
      ⟨applyAll st.routes (insertionsItem n p), st.flatRoutes ++ flatInsertionsItem n⟩ := by
  match n with
  | ManifestNode.mk title type content_path children =>
    rw [buildRoutesItem]
    match children with
    | ManifestForest.nil =>
      simp [ManifestForest.length, insertionsItem, flatInsertionsItem, insertions,
        flatInsertions, applyAll_cons, applyAll_nil]
    | ManifestForest.cons c cs =>
      rw [if_pos (by simp [ManifestForest.length]),
        buildRoutes_eq (ManifestForest.cons c cs) _ _]
      simp [insertionsItem, flatInsertionsItem, applyAll_cons]
end

mutual
theorem insertions_keys_eq_flat (f : ManifestForest) (p : String) :
    (insertions f p).map Prod.fst = (flatInsertions f).map FlatRoute.route := by
  match f with
  | ManifestForest.nil => simp [insertions, flatInsertions]
  | ManifestForest.cons item rest =>
    rw [insertions, flatInsertions]
    simp [insertionsItem_keys_eq_flat item p, insertions_keys_eq_flat rest p]

theorem insertionsItem_keys_eq_flat (n : ManifestNode) (p : String) :
    (insertionsItem n p).map Prod.fst = (flatInsertionsItem n).map FlatRoute.route := by
  match n with
  | ManifestNode.mk title type content_path children =>
    rw [insertionsItem, flatInsertionsItem]
    simp [insertions_keys_eq_flat children]
end

theorem flatInsertions_eq_nil (f : ManifestForest) (h : flatInsertions f = []) :
    f = ManifestForest.nil := by
  match f with
  | ManifestForest.nil => rfl
  | ManifestForest.cons item rest =>
    exfalso
    match item with
    | ManifestNode.mk title type content_path children =>
      simp [flatInsertions, flatInsertionsItem] at h

/-! ### Run lemmas -/

theorem handleRouteRun_done (st : RouterState) (path : String) (fin : FinalAction)
    (h : handleRoute st path = Step.done fin) (fuel : Nat) :
    handleRouteRun st fuel path = ([], fin) := by
  cases fuel <;> simp [handleRouteRun, h]

theorem handleRouteRun_redirect (st : RouterState) (path target : String)
    (h : handleRoute st path = Step.redirect target) (fuel : Nat) :
    handleRouteRun st (fuel + 1) path =
      (navigateOp target true :: (handleRouteRun st fuel target).1,
        (handleRouteRun st fuel target).2) := by
  simp [handleRouteRun, h]

theorem mapGet_applyAll_nil (l : List (String × RouteData)) (k : String) :
    mapGet (applyAll [] l) k = lastAssign l k := by
  rw [mapGet_applyAll]
  cases lastAssign l k <;> rfl

theorem mapGet_buildRoutes (f : ManifestForest) (p : String) (k : String) :
    mapGet (buildRoutes f p ⟨[], []⟩).routes k = lastAssign (insertions f p) k := by
  rw [buildRoutes_eq]
  exact mapGet_applyAll_nil (insertions f p) k

theorem flatRoutes_buildRoutes (f : ManifestForest) (p : String) :
    (buildRoutes f p ⟨[], []⟩).flatRoutes = flatInsertions f := by
  rw [buildRoutes_eq]
  simp

theorem applyAll_idem (l : List (String × RouteData)) :
    applyAll (applyAll [] l) l = applyAll [] l := by
  apply table_ext
  · apply keys_applyAll_of_present
    intro q hq
    rw [mapGet_applyAll_nil]
    exact lastAssign_isSome_of_mem l q.1 (List.mem_map_of_mem Prod.fst hq)
  · exact nodup_keys_applyAll l (applyAll [] l)
      (nodup_keys_applyAll l [] (by simp))
  · intro k
    rw [mapGet_applyAll, mapGet_applyAll_nil]
    cases lastAssign l k <;> rfl

theorem resolve_home_iff (p : String) :
    resolveNamedRoute p = some NamedRoute.home ↔ p = "/" := by
  rw [resolveNamedRoute]
  split_ifs with h1 h2 h3 <;> simp_all

theorem resolve_about_iff (p : String) :
    resolveNamedRoute p = some NamedRoute.about ↔ p = "/about" := by
  rw [resolveNamedRoute]
  split_ifs with h1 h2 h3 <;> simp_all

theorem resolve_notes_iff (p : String) :
    resolveNamedRoute p = some NamedRoute.notes ↔
      (p = "/notes" ∨ strStartsWith p "/notes/" = true ∨
        strStartsWith p "/notes?" = true) := by
  rw [resolveNamedRoute]
  split_ifs with h1 h2 h3
  · subst h1
    simp only [Option.some.injEq]
    decide
  · subst h2
    simp only [Option.some.injEq]
    decide
  · simp [h3]
  · simp [h3]

theorem resolve_none_iff (p : String) :
    resolveNamedRoute p = none ↔
      ¬(p = "/" ∨ p = "/about" ∨ p = "/notes" ∨
        strStartsWith p "/notes/" = true ∨ strStartsWith p "/notes?" = true) := by
  rw [resolveNamedRoute]
  split_ifs with h1 h2 h3
  · simp [h1]
  · simp [h2]
  · simp [h3]
  · have hall : ¬(p = "/" ∨ p = "/about" ∨ p = "/notes" ∨
        strStartsWith p "/notes/" = true ∨ strStartsWith p "/notes?" = true) := by
      rintro (h | h | h)
      · exact h1 h
      · exact h2 h
      · exact h3 h
    simp [hall]

theorem handleRoute_404_of_resolve_none (st : RouterState) (path : String)
    (h : resolveNamedRoute path = none) :
    handleRoute st path = Step.done FinalAction.rendered404 := by
  rw [handleRoute, h]

theorem findMatchingRoute_mem (routes : List (String × RouteData)) (p r : String)
    (h : findMatchingRoute routes p = some r) : (mapGet routes r).isSome = true := by
  induction routes with
  | nil => simp [findMatchingRoute] at h
  | cons q rest ih =>
    rw [findMatchingRoute] at h
    split_ifs at h with hc
    · obtain rfl : q.1 = r := by
        simpa using h
      simp [mapGet]
    · have hr := ih h
      rw [mapGet]
      split_ifs with hq
      · simp
      · exact hr

theorem handleRoute_done_of_isSome (st : RouterState) (path : String)
    (h : (mapGet st.routes path).isSome = true) :
    ∃ fin, handleRoute st path = Step.done fin := by
  obtain ⟨rd, hrd⟩ := Option.isSome_iff_exists.mp h
  rw [handleRoute]
  cases hres : resolveNamedRoute path with
  | none => exact ⟨_, rfl⟩
  | some nr =>
    cases nr with
    | home => exact ⟨_, rfl⟩
    | about => exact ⟨_, rfl⟩
    | notes =>
      rw [hrd]
      exact ⟨_, rfl⟩

/-! ### Claims -/

/-- C2 counterexample: a node whose `content_path` is missing (`null`)
does produce a route-table entry — keyed at the bare section root
`'/notes'` — contradicting the claim that it produces no entry at all. -/
theorem C2_counterexample :
    mapGet (buildRoutes (ManifestForest.cons
        (ManifestNode.mk "X" "file" none ManifestForest.nil) ManifestForest.nil)
        "" ⟨[], []⟩).routes "/notes" =
      some { title := "X", type := "file", contentPath := none, parentPath := "",
             namedRoute := "notes" } := by
  decide

/-- C2 (amended): after `buildRoutes`, every manifest node — including
nodes with a missing or empty content path, which are keyed at the bare
root `'/notes'` — contributes a route-table entry keyed
`'/notes' + pathToSubRoute(content_path)`; a lookup returns the
last-built entry for that key (last-write-wins), keys are stored without
duplicates, and `flatRoutes` is exactly the depth-first pre-order list
of all nodes (children are traversed even when the parent's path is
missing). -/
theorem C2_route_table_characterization (f : ManifestForest) (k : String) :
    mapGet (buildRoutes f "" ⟨[], []⟩).routes k = lastAssign (insertions f "") k ∧
    (((buildRoutes f "" ⟨[], []⟩).routes).map Prod.fst).Nodup ∧
    (buildRoutes f "" ⟨[], []⟩).flatRoutes = flatInsertions f := by
  refine ⟨mapGet_buildRoutes f "" k, ?_, flatRoutes_buildRoutes f ""⟩
  rw [buildRoutes_eq]
  exact nodup_keys_applyAll (insertions f "") [] (by simp)

/-- C3 counterexample: the normalizer is not idempotent — the anchored,
non-global regex strips only one trailing `.html`, so
`pathToSubRoute('/a.html.html') = '/a.html'` but normalizing that result
again gives `'/a'`. -/
theorem C3_counterexample :
    pathToSubRoute (some (pathToSubRoute (some "/a.html.html"))) ≠
      pathToSubRoute (some "/a.html.html") := by
  decide

/-- C3 (amended): the Path Normalizer is deterministic (equal inputs give
equal outputs), and it is idempotent on every input whose normalized
form no longer ends in `.html` nor, case-insensitively, in `/readme` —
re-normalizing such a result returns it unchanged. -/
theorem C3_normalizer_deterministic_conditionally_idempotent :
    (∀ p q : Option String, p = q → pathToSubRoute p = pathToSubRoute q) ∧
    (∀ p : String,
      strEndsWith (pathToSubRoute (some p)) ".html" = false →
      strEndsWith (strToLower (pathToSubRoute (some p))) "/readme" = false →
      pathToSubRoute (some (pathToSubRoute (some p))) = pathToSubRoute (some p)) := by
  constructor
  · intro p q h
    rw [h]
  · intro p h1 h2
    by_cases hempty : pathToSubRoute (some p) = ""
    · rw [hempty]
      rfl
    · rw [pathToSubRoute]
      simp only [replaceHtmlSuffix, replaceReadmeSuffix, h1, h2, if_false,
        Bool.false_eq_true, hempty, if_neg hempty]

/-- C3 witness: a concrete instantiation of the conditional idempotence,
with both hypotheses evaluated. -/
theorem C3_witness :
    strEndsWith (pathToSubRoute (some "/x/README.html")) ".html" = false ∧
    strEndsWith (strToLower (pathToSubRoute (some "/x/README.html"))) "/readme" = false ∧
    pathToSubRoute (some (pathToSubRoute (some "/x/README.html"))) =
      pathToSubRoute (some "/x/README.html") :=
  ⟨by decide, by decide,
    C3_normalizer_deterministic_conditionally_idempotent.2 "/x/README.html"
      (by decide) (by decide)⟩

/-- C5 counterexample: the breadcrumb for `/notes/a/b` does not consist of
three link/text segments — the first path part `notes` renders as its
own link after the unconditional `Home` link. -/
theorem C5_counterexample :
    ¬ ((updateBreadcrumb "/notes/a/b"
        { title := "B", type := "file", contentPath := some "/a/b.html",
          parentPath := "/notes/a", namedRoute := "notes" }).filter Crumb.isSegment =
      [Crumb.link "Home" "/", Crumb.link "a" "/notes/a", Crumb.text "B"]) := by
  decide

/-- C5 (amended): the breadcrumb for `/notes/a/b` with a route titled `B`
consists of exactly four link/text segments — `Home` linking to `/`,
`notes` linking to `/notes`, `a` linking to `/notes/a`, and the plain
text `B` — interleaved with `/` separators. -/
theorem C5_breadcrumb_segments :
    updateBreadcrumb "/notes/a/b"
        { title := "B", type := "file", contentPath := some "/a/b.html",
          parentPath := "/notes/a", namedRoute := "notes" } =
      [Crumb.link "Home" "/", Crumb.sep, Crumb.link "notes" "/notes", Crumb.sep,
        Crumb.link "a" "/notes/a", Crumb.sep, Crumb.text "B"] ∧
    (updateBreadcrumb "/notes/a/b"
        { title := "B", type := "file", contentPath := some "/a/b.html",
          parentPath := "/notes/a", namedRoute := "notes" }).filter Crumb.isSegment =
      [Crumb.link "Home" "/", Crumb.link "notes" "/notes", Crumb.link "a" "/notes/a",
        Crumb.text "B"] := by
  constructor <;> decide

/-- C6: when the content fetch fails — non-ok HTTP status or transport
error — the content region is set to the inline error markup naming the
attempted content path, the loader returns normally (it is a total
function in this embedding, mirroring the `try`/`catch` that swallows
the throw), and the active-nav route, breadcrumb and document title of
the navigation pass are identical to what any other fetch outcome
produces. -/
theorem C6_fetch_failure_inline_error (route : String) (rd : RouteData)
    (response : FetchResult)
    (hfail : ∀ body, response ≠ FetchResult.success body) :
    (notesRenderPass route rd response).contentBody =
      "<p>Error loading: " ++ jsTemplateOptString rd.contentPath ++ "</p>" ∧
    ∀ response' : FetchResult,
      (notesRenderPass route rd response).activeNavRoute =
        (notesRenderPass route rd response').activeNavRoute ∧
      (notesRenderPass route rd response).breadcrumb =
        (notesRenderPass route rd response').breadcrumb ∧
      (notesRenderPass route rd response).docTitle =
        (notesRenderPass route rd response').docTitle := by
  constructor
  · cases response with
    | success body => exact absurd rfl (hfail body)
    | httpError => rfl
    | transportError => rfl
  · intro response'
    exact ⟨rfl, rfl, rfl⟩

/-- C6 witness: the failure branch at a concrete route with a non-ok
HTTP status. -/
theorem C6_witness :
    (notesRenderPass "/notes/a"
        { title := "A", type := "file", contentPath := some "/a.html",
          parentPath := "", namedRoute := "notes" } FetchResult.httpError).contentBody =
      "<p>Error loading: " ++ jsTemplateOptString (some "/a.html") ++ "</p>" ∧
    ∀ response' : FetchResult,
      (notesRenderPass "/notes/a"
          { title := "A", type := "file", contentPath := some "/a.html",
            parentPath := "", namedRoute := "notes" } FetchResult.httpError).activeNavRoute =
        (notesRenderPass "/notes/a"
          { title := "A", type := "file", contentPath := some "/a.html",
            parentPath := "", namedRoute := "notes" } response').activeNavRoute ∧
      (notesRenderPass "/notes/a"
          { title := "A", type := "file", contentPath := some "/a.html",
            parentPath := "", namedRoute := "notes" } FetchResult.httpError).breadcrumb =
        (notesRenderPass "/notes/a"
          { title := "A", type := "file", contentPath := some "/a.html",
            parentPath := "", namedRoute := "notes" } response').breadcrumb ∧
      (notesRenderPass "/notes/a"
          { title := "A", type := "file", contentPath := some "/a.html",
            parentPath := "", namedRoute := "notes" } FetchResult.httpError).docTitle =
        (notesRenderPass "/notes/a"
          { title := "A", type := "file", contentPath := some "/a.html",
            parentPath := "", namedRoute := "notes" } response').docTitle :=
  C6_fetch_failure_inline_error "/notes/a"
    { title := "A", type := "file", contentPath := some "/a.html",
      parentPath := "", namedRoute := "notes" }
    FetchResult.httpError (fun _body h => FetchResult.noConfusion h)

/-- C7 counterexample: with an empty route table and empty
`flatRoutes`, handling `/notes` is not a silent no-op — it falls through
to `findMatchingRoute` (which finds nothing) and renders the 404 page,
whose markup is non-empty content written into the content region. -/
theorem C7_counterexample :
    handleRouteRun ⟨[], []⟩ 5 "/notes" = ([], FinalAction.rendered404) ∧
    show404ContentBody ≠ "" := by
  constructor
  · decide
  · decide

/-- C7 (amended): when the state was built from a manifest and
`flatRoutes` is empty, handling `/notes` terminates immediately — no
history operation is performed, so there is no redirect and no infinite
loop — and it renders the 404 page (rather than rendering nothing). -/
theorem C7_empty_flatroutes_renders_404 (f : ManifestForest) (st : RouterState)
    (hst : st = buildRoutes f "" ⟨[], []⟩) (hflat : st.flatRoutes = [])
    (fuel : Nat) :
    handleRouteRun st fuel "/notes" = ([], FinalAction.rendered404) := by
  have hf : f = ManifestForest.nil := by
    apply flatInsertions_eq_nil
    rw [hst, flatRoutes_buildRoutes] at hflat
    exact hflat
  subst hf
  subst hst
  exact handleRouteRun_done _ _ _ (by decide) fuel

/-- C7 witness: the empty manifest, with fuel to spare. -/
theorem C7_witness :
    handleRouteRun (buildRoutes ManifestForest.nil "" ⟨[], []⟩) 7 "/notes" =
      ([], FinalAction.rendered404) :=
  C7_empty_flatroutes_renders_404 ManifestForest.nil _ rfl (by decide) 7

/-- C8 counterexample: a second `buildRoutes` invocation on the same
one-node manifest appends a duplicate entry to `flatRoutes` instead of
leaving it unchanged, so the builder is not idempotent for both
process-wide structures. -/
theorem C8_counterexample :
    (buildRoutes (ManifestForest.cons
        (ManifestNode.mk "A" "file" (some "/a.html") ManifestForest.nil)
        ManifestForest.nil) ""
      (buildRoutes (ManifestForest.cons
        (ManifestNode.mk "A" "file" (some "/a.html") ManifestForest.nil)
        ManifestForest.nil) "" ⟨[], []⟩)).flatRoutes ≠
    (buildRoutes (ManifestForest.cons
        (ManifestNode.mk "A" "file" (some "/a.html") ManifestForest.nil)
        ManifestForest.nil) "" ⟨[], []⟩).flatRoutes := by
  decide

/-- C8 (amended): a second `buildRoutes` invocation on the same manifest
leaves the route table exactly equal to its state after the first
invocation (every `set` overwrites), but appends a second copy of the
depth-first route list to `flatRoutes` (every `push` appends), so only
the table — not the flat list — is idempotent. -/
theorem C8_second_invocation (f : ManifestForest) (p : String) :
    (buildRoutes f p (buildRoutes f p ⟨[], []⟩)).routes =
      (buildRoutes f p ⟨[], []⟩).routes ∧
    (buildRoutes f p (buildRoutes f p ⟨[], []⟩)).flatRoutes =
      (buildRoutes f p ⟨[], []⟩).flatRoutes ++ flatInsertions f := by
  constructor
  · rw [buildRoutes_eq f p (buildRoutes f p ⟨[], []⟩), buildRoutes_eq f p ⟨[], []⟩]
    simpa using applyAll_idem (insertions f p)
  · rw [buildRoutes_eq f p (buildRoutes f p ⟨[], []⟩)]

/-- C9: `applyLayout` writes the marker class and all four chrome
visibilities as one unit determined solely by `showsSidebar` —
`showsSidebar = true` (the `notes` route) yields the all-shown state
with the marker removed, `false` (`home`, `about`, or no named route)
yields the all-hidden state with the marker added — and after any
sequence of layout applications the four elements always agree, with
the marker present exactly when they are hidden. -/
theorem C9_layout_atomic_consistency (nr : Option NamedRoute) (c : ChromeState)
    (l : List (Option NamedRoute)) :
    applyLayout nr c = (if showSidebarOf nr then shownChrome else hiddenChrome) ∧
    applyLayout (some NamedRoute.notes) c = shownChrome ∧
    applyLayout (some NamedRoute.home) c = hiddenChrome ∧
    applyLayout (some NamedRoute.about) c = hiddenChrome ∧
    applyLayout none c = hiddenChrome ∧
    chromeConsistent (List.foldl (fun s n => applyLayout n s) (applyLayout nr c) l) := by
  refine ⟨rfl, rfl, rfl, rfl, rfl, ?_⟩
  induction l generalizing nr c with
  | nil =>
    simp only [List.foldl_nil, applyLayout]
    cases hs : showSidebarOf nr <;>
      simp [chromeConsistent, shownChrome, hiddenChrome]
  | cons n restL ih =>
    rw [List.foldl_cons]
    exact ih n (applyLayout nr c)

/-- C4: the named-route resolver is a pure function with first-match-wins
order — `/` resolves exactly to `home`, `/about` exactly to `about`, a
path equal to `/notes` or starting with `/notes/` or `/notes?` to
`notes`, and every other path (such as `/notesfoo`) to none, which
`handleRoute` turns into a 404 render. -/
theorem C4_named_route_resolver (p : String) :
    (resolveNamedRoute p = some NamedRoute.home ↔ p = "/") ∧
    (resolveNamedRoute p = some NamedRoute.about ↔ p = "/about") ∧
    (resolveNamedRoute p = some NamedRoute.notes ↔
      (p = "/notes" ∨ strStartsWith p "/notes/" = true ∨
        strStartsWith p "/notes?" = true)) ∧
    (resolveNamedRoute p = none ↔
      ¬(p = "/" ∨ p = "/about" ∨ p = "/notes" ∨
        strStartsWith p "/notes/" = true ∨ strStartsWith p "/notes?" = true)) ∧
    resolveNamedRoute "/notesfoo" = none ∧
    (∀ (st : RouterState) (fuel : Nat), resolveNamedRoute p = none →
      handleRouteRun st fuel p = ([], FinalAction.rendered404)) :=
  ⟨resolve_home_iff p, resolve_about_iff p, resolve_notes_iff p, resolve_none_iff p,
    by decide,
    fun st fuel h =>
      handleRouteRun_done st p _ (handleRoute_404_of_resolve_none st p h) fuel⟩

/-- C4 witness: the resolver and the 404 path at concrete inputs. -/
theorem C4_witness :
    resolveNamedRoute "/about" = some NamedRoute.about ∧
    resolveNamedRoute "/notes/x" = some NamedRoute.notes ∧
    handleRouteRun ⟨[], []⟩ 3 "/elsewhere" = ([], FinalAction.rendered404) :=
  ⟨(C4_named_route_resolver "/about").2.1.mpr rfl,
    (C4_named_route_resolver "/notes/x").2.2.1.mpr (Or.inr (Or.inl (by decide))),
    (C4_named_route_resolver "/elsewhere").2.2.2.2.2 ⟨[], []⟩ 3 (by decide)⟩

/-- C1 counterexample: a manifest whose only content path lacks a leading
slash (`x.html`) yields the flat route `/notesx`; handling `/notes` with
this non-empty flat list performs the single replace-redirect, but the
redirect target does not resolve to the `notes` named route, so the 404
page is rendered instead of the first flat route — even though the
claim's premises (non-empty flat list, no exact `/notes` entry) hold. -/
theorem C1_counterexample :
    mapGet (buildRoutes (ManifestForest.cons
        (ManifestNode.mk "X" "file" (some "x.html") ManifestForest.nil)
        ManifestForest.nil) "" ⟨[], []⟩).routes "/notes" = none ∧
    (buildRoutes (ManifestForest.cons
        (ManifestNode.mk "X" "file" (some "x.html") ManifestForest.nil)
        ManifestForest.nil) "" ⟨[], []⟩).flatRoutes ≠ [] ∧
    handleRouteRun (buildRoutes (ManifestForest.cons
        (ManifestNode.mk "X" "file" (some "x.html") ManifestForest.nil)
        ManifestForest.nil) "" ⟨[], []⟩) 5 "/notes" =
      ([HistoryOp.replace "/notesx"], FinalAction.rendered404) := by
  refine ⟨by decide, by decide, by decide⟩

/-- C1 (amended): for a state built from a manifest, if the route table
has no exact `/notes` entry, `flatRoutes` is non-empty, and the first
flat route's path resolves to the `notes` named route (as it does
whenever content paths carry a leading slash), then handling `/notes`
performs exactly one history operation — a replace, not a push — whose
target is the first flat route's path, and the second pass renders that
route's table entry, so the final URL equals the first flat route's
path. -/
theorem C1_section_root_redirect (f : ManifestForest) (st : RouterState)
    (hst : st = buildRoutes f "" ⟨[], []⟩)
    (hroot : mapGet st.routes "/notes" = none)
    (first : FlatRoute) (rest : List FlatRoute)
    (hflat : st.flatRoutes = first :: rest)
    (hres : resolveNamedRoute first.route = some NamedRoute.notes)
    (fuel : Nat) :
    ∃ rd, mapGet st.routes first.route = some rd ∧
      handleRouteRun st (fuel + 1) "/notes" =
        ([navigateOp first.route true], FinalAction.renderedNotes first.route rd) ∧
      navigateOp first.route true = HistoryOp.replace first.route := by
  have hflatIns : flatInsertions f = first :: rest := by
    rw [hst, flatRoutes_buildRoutes] at hflat
    exact hflat
  have hmem : first.route ∈ (insertions f "").map Prod.fst := by
    rw [insertions_keys_eq_flat f "", hflatIns]
    simp
  have hsome : (mapGet st.routes first.route).isSome = true := by
    rw [hst, mapGet_buildRoutes]
    exact lastAssign_isSome_of_mem _ _ hmem
  obtain ⟨rd, hrd⟩ := Option.isSome_iff_exists.mp hsome
  have hne : ¬ first.route = "/notes" := by
    intro h
    rw [h, hroot] at hrd
    exact Option.noConfusion hrd
  have step1 : handleRoute st "/notes" = Step.redirect first.route := by
    rw [handleRoute,
      show resolveNamedRoute "/notes" = some NamedRoute.notes from by decide,
      hroot, hflat]
    simp
  have step2 : handleRoute st first.route =
      Step.done (FinalAction.renderedNotes first.route rd) := by
    rw [handleRoute, hres, hrd]
  refine ⟨rd, hrd, ?_, rfl⟩
  rw [handleRouteRun_redirect st "/notes" first.route step1 fuel,
    handleRouteRun_done st first.route _ step2 fuel]

/-- C1 witness: the spec's own example manifest (Nature/Trees); handling
`/notes` replace-redirects once to `/notes/nature` and renders it. -/
theorem C1_witness :
    ∃ rd, mapGet (buildRoutes (ManifestForest.cons
        (ManifestNode.mk "Nature" "directory" (some "/nature/README.html")
          (ManifestForest.cons
            (ManifestNode.mk "Trees" "file" (some "/nature/trees.html")
              ManifestForest.nil) ManifestForest.nil)) ManifestForest.nil)
        "" ⟨[], []⟩).routes "/notes/nature" = some rd ∧
      handleRouteRun (buildRoutes (ManifestForest.cons
          (ManifestNode.mk "Nature" "directory" (some "/nature/README.html")
            (ManifestForest.cons
              (ManifestNode.mk "Trees" "file" (some "/nature/trees.html")
                ManifestForest.nil) ManifestForest.nil)) ManifestForest.nil)
          "" ⟨[], []⟩) (0 + 1) "/notes" =
        ([navigateOp "/notes/nature" true],
          FinalAction.renderedNotes "/notes/nature" rd) ∧
      navigateOp "/notes/nature" true = HistoryOp.replace "/notes/nature" :=
  C1_section_root_redirect
    (ManifestForest.cons
      (ManifestNode.mk "Nature" "directory" (some "/nature/README.html")
        (ManifestForest.cons
          (ManifestNode.mk "Trees" "file" (some "/nature/trees.html")
            ManifestForest.nil) ManifestForest.nil)) ManifestForest.nil)
    _ rfl (by decide)
    { route := "/notes/nature", title := "Nature", type := "directory",
      contentPath := some "/nature/README.html" }
    [{ route := "/notes/nature/trees", title := "Trees", type := "file",
       contentPath := some "/nature/trees.html" }]
    (by decide) (by decide) 0

/-- C10: for every route table and requested path, `findMatchingRoute`
returns either none or a key present in the table; consequently a
fallback redirect always targets a path whose exact lookup succeeds, and
re-handling that target finishes in a terminal render — it performs no
history operation at all — so the fallback matcher can never cause a
second redirect or a redirect loop. -/
theorem C10_fallback_no_second_redirect (routes : List (String × RouteData))
    (p r : String) (h : findMatchingRoute routes p = some r) :
    (mapGet routes r).isSome = true ∧
    ∀ (flat : List FlatRoute) (fuel : Nat),
      ∃ fin, handleRoute ⟨routes, flat⟩ r = Step.done fin ∧
        handleRouteRun ⟨routes, flat⟩ fuel r = ([], fin) := by
  have hsome := findMatchingRoute_mem routes p r h
  refine ⟨hsome, fun flat fuel => ?_⟩
  obtain ⟨fin, hfin⟩ := handleRoute_done_of_isSome ⟨routes, flat⟩ r hsome
  exact ⟨fin, hfin, handleRouteRun_done _ _ _ hfin fuel⟩

/-- C10 witness: a stale URL `/notes/a/b` fallback-matches to the table
key `/notes/a`; the lookup at the target succeeds and handling the
target performs no history operation. -/
theorem C10_witness :
    (mapGet [("/notes/a",
        { title := "A", type := "file", contentPath := some "/a.html",
          parentPath := "", namedRoute := "notes" })] "/notes/a").isSome = true ∧
    (∃ fin, handleRoute ⟨[("/notes/a",
        { title := "A", type := "file", contentPath := some "/a.html",
          parentPath := "", namedRoute := "notes" })], []⟩ "/notes/a" =
          Step.done fin ∧
      handleRouteRun ⟨[("/notes/a",
        { title := "A", type := "file", contentPath := some "/a.html",
          parentPath := "", namedRoute := "notes" })], []⟩ 3 "/notes/a" =
        ([], fin)) :=
  ⟨(C10_fallback_no_second_redirect
      [("/notes/a",
        { title := "A", type := "file", contentPath := some "/a.html",
          parentPath := "", namedRoute := "notes" })] "/notes/a/b" "/notes/a"
      (by decide)).1,
    (C10_fallback_no_second_redirect
      [("/notes/a",
        { title := "A", type := "file", contentPath := some "/a.html",
          parentPath := "", namedRoute := "notes" })] "/notes/a/b" "/notes/a"
      (by decide)).2 [] 3⟩
